import Mathlib

/-!
Shallow embedding of the crawl orchestration engine of
`core/playwright_web_elements_analyzer.py` (class `WebCrawler`, lines
2877-3420, plus the module-level helpers `extract_links` and
`_get_page_content`), together with proofs about its main loop,
its URL filtering policy and its output-location allocator.

Conventions of the embedding:
- Python strings are Lean `String`; the character-level helpers below work
  on `List Char` by structural recursion so that every definition reduces
  inside the kernel on concrete inputs.
- Python sets (`visited_urls`, `failed_urls`) are lists to which an element
  is pushed at most once along a run; `dict`s (`url_to_depth`, `results`)
  are association lists where assignment overwrites the existing binding,
  exactly as a Python `dict` assignment does.
- Wall-clock concerns of the source (`time.time()`, the politeness
  `time.sleep(self.delay)` between iterations, `datetime.now()`) are real
  time and are not part of the state; the allocator receives the formatted
  date/time strings it would read from `datetime.now()` as an argument.
- The external analyzer call together with the filesystem round trip
  (`self.analyzer.analyze_url` inside `_analyze_page`, then
  `_get_page_content`, then `extract_links`) is modelled as an oracle
  `env : String -> AnalyzeResult` giving, per URL, what that pipeline
  yields for the page; the regex internals of `extract_links` are not
  themselves under test here.
-/

namespace WebsightCrawler

/-! ### Character-list utilities (Python `str` operations used by the crawler) -/

/-- ASCII lowering of one character, the effect of Python `str.lower()` on the
ASCII URLs the crawler handles. -/
def lowerChar (c : Char) : Char :=
  if 65 ≤ c.toNat ∧ c.toNat ≤ 90 then Char.ofNat (c.toNat + 32) else c

/-- ASCII lowering of a character list (Python `url.lower()`). -/
def lowerCL (l : List Char) : List Char := l.map lowerChar

/-- Worker for `splitOnChar`, accumulating the current field in reverse. -/
def splitOnCharAux (c : Char) : List Char → List Char → List (List Char)
  | [], acc => [acc.reverse]
  | x :: xs, acc =>
    if x == c then acc.reverse :: splitOnCharAux c xs []
    else splitOnCharAux c xs (x :: acc)

/-- Python `str.split(sep)` for a one-character separator: `"a.b".split "."`
gives `["a", "b"]`, and the empty string gives `[""]`. -/
def splitOnChar (c : Char) (l : List Char) : List (List Char) :=
  splitOnCharAux c l []

/-- Test whether `needle` starts `hay` (character-wise). -/
def pfxCL : List Char → List Char → Bool
  | [], _ => true
  | _ :: _, [] => false
  | a :: as, b :: bs => a == b && pfxCL as bs

/-- Python `hay.endswith(needle)` on character lists. -/
def sfxCL (needle hay : List Char) : Bool :=
  pfxCL needle.reverse hay.reverse

/-- Python `needle in hay` (substring containment) on character lists. -/
def subCL (needle : List Char) : List Char → Bool
  | [] => needle.isEmpty
  | c :: rest => pfxCL needle (c :: rest) || subCL needle rest

/-- Python `c in s` for a single character. -/
def containsChar (c : Char) (l : List Char) : Bool :=
  l.any (fun x => x == c)

/-- Network-location component of an absolute `http(s)` URL: the characters
after the first `//` up to the next `/`, `?` or `#` — the value of
`urlparse(url).netloc` for the scheme-qualified URLs the crawler passes
around (an input with no `//` has an empty netloc, as in `urlparse`). -/
def netlocCL : List Char → List Char
  | [] => []
  | '/' :: '/' :: rest =>
    rest.takeWhile (fun c => !(c == '/') && !(c == '?') && !(c == '#'))
  | _ :: rest => netlocCL rest

/-- Path component of an absolute `http(s)` URL: what follows the netloc up
to the first `?` or `#` — the value of `urlparse(url).path` for the
scheme-qualified URLs the crawler passes around. -/
def pathCL : List Char → List Char
  | [] => []
  | '/' :: '/' :: rest =>
    (rest.dropWhile (fun c => !(c == '/') && !(c == '?') && !(c == '#'))).takeWhile
      (fun c => !(c == '?') && !(c == '#'))
  | _ :: rest => pathCL rest

/-- Query component: `urlparse(url).query`, i.e. what follows the first `?`
of the part before any `#`; empty when there is no `?` there. -/
def queryCL (l : List Char) : List Char :=
  ((l.takeWhile (fun c => !(c == '#'))).dropWhile (fun c => !(c == '?'))).drop 1

/-- String wrapper for `netlocCL`; models `urlparse(url).netloc`. -/
def netlocStr (url : String) : String := String.mk (netlocCL url.data)

/-- String wrapper for `pathCL`; models `urlparse(url).path`. -/
def pathStr (url : String) : String := String.mk (pathCL url.data)

/-- String wrapper for `queryCL`; models `urlparse(url).query`. -/
def queryStr (url : String) : String := String.mk (queryCL url.data)

/-- Python `url.split('#')[0]`: the part of the URL before the first `#`. -/
def fragBase (url : String) : String :=
  String.mk (url.data.takeWhile (fun c => !(c == '#')))

/-- Number of `&` characters in a string (Python `query_part.count('&')`). -/
def ampCount (q : String) : Nat :=
  (q.data.filter (fun c => c == '&')).length

/-! ### Association-list model of Python `dict` -/

/-- Python `d[k] = v` on an association list: overwrite the first binding of
`k` in place, or append a fresh binding at the end. -/
def alist_set : List (String × Nat) → String → Nat → List (String × Nat)
  | [], k, v => [(k, v)]
  | (k', v') :: rest, k, v =>
    if k' = k then (k, v) :: rest else (k', v') :: alist_set rest k v

/-- Python `d.get(k)` / `d[k]` lookup on an association list. -/
def alist_get? : List (String × Nat) → String → Option Nat
  | [], _ => none
  | (k', v') :: rest, k => if k' = k then some v' else alist_get? rest k

/-! ### Crawl configuration and state
(`WebCrawler.__init__`, lines 2880-2927) -/

/-- Configuration consumed by `WebCrawler.__init__`: the start URL and the
`depth` / `max_pages` / `exclude` / `include_only` options. The regex
patterns are modelled as opaque predicates, one per compiled pattern, each
standing for `pattern.search(url) is not None`. The `delay` option only
feeds `time.sleep` and is not part of the state. -/
structure CrawlConfig where
  start_url : String
  max_depth : Nat
  max_pages : Nat
  exclude_patterns : List (String → Bool)
  include_patterns : List (String → Bool)

/-- Mutable state of one `WebCrawler` instance. `analyzed` is a ghost
history variable (not a field of the Python object): it records, newest
first, every URL for which `self._analyze_page` has been invoked, and
changes exactly when that call site runs. The remaining fields are the
object fields of the same names; `visited_urls` and `failed_urls` are
newest-first lists standing for the Python sets, `results` holds
`(url, depth, page_number)` in insertion order. -/
structure CrawlState where
  visited_urls : List String
  failed_urls : List String
  urls_to_visit : List String
  url_to_depth : List (String × Nat)
  pages_crawled : Nat
  results : List (String × Nat × Nat)
  analyzed : List String
deriving DecidableEq

/-- State set up by `WebCrawler.__init__` (lines 2911-2927): empty tracking
structures, the queue seeded with the start URL, and
`url_to_depth[start_url] = 0`. -/
def initState (cfg : CrawlConfig) : CrawlState :=
  { visited_urls := []
    failed_urls := []
    urls_to_visit := [cfg.start_url]
    url_to_depth := [(cfg.start_url, 0)]
    pages_crawled := 0
    results := []
    analyzed := [] }

/-- Value of `self.base_domain`: `urlparse(start_url).netloc` (line 2909). -/
def base_domain (cfg : CrawlConfig) : String := netlocStr cfg.start_url

/-- Depth the loop reads for a URL: `self.url_to_depth[current_url]`
(line 3056). The lookup is total here with default `0`; the reachability
invariant proved below shows the default is never consulted. -/
def depthOf (s : CrawlState) (url : String) : Nat :=
  (alist_get? s.url_to_depth url).getD 0

/-! ### URL filtering policy (`WebCrawler.should_crawl_url`, lines 2929-3040) -/

/-- Domain check of `should_crawl_url` (lines 2935-2960): accept a host
exactly equal to `self.base_domain`; otherwise accept only when both hosts
have at least two dot-separated labels and their last two labels, joined
with a dot, coincide. -/
def splitDots (s : String) : List String :=
  (splitOnChar '.' s.data).map (fun cs => String.mk cs)

/-- Join labels with dots (Python `'.'.join(parts)`). -/
def joinDots : List String → String
  | [] => ""
  | [s] => s
  | s :: rest => s ++ "." ++ joinDots rest

/-- Python `parts[-2:]`: the last two labels of a host split on dots. -/
def lastTwo (l : List String) : List String := l.drop (l.length - 2)

/-- The related-domain acceptance of lines 2940-2960, as a function of the
stored base domain and the candidate's netloc. -/
def domain_check (base_dom url_host : String) : Bool :=
  if url_host = base_dom then true
  else if 2 ≤ (splitDots base_dom).length ∧ 2 ≤ (splitDots url_host).length then
    if joinDots (lastTwo (splitDots base_dom)) = joinDots (lastTwo (splitDots url_host)) then
      true
    else false
  else false

/-- The `excluded_extensions` list of lines 2963-2980, verbatim. -/
def excluded_extensions : List String :=
  [".oembed", ".json", ".xml", ".rss", ".csv", ".zip", ".pdf", ".atom",
   ".js", ".css", ".ico", ".map",
   ".png", ".jpeg", ".jpg", ".gif", ".svg", ".webp", ".bmp", ".tiff",
   ".mp4", ".avi", ".mov", ".webm", ".mkv", ".flv", ".wmv",
   ".mp3", ".wav", ".ogg", ".aac", ".flac",
   ".woff", ".woff2", ".ttf", ".eot", ".otf",
   ".doc", ".docx", ".xls", ".xlsx", ".ppt", ".pptx",
   ".tar", ".gz", ".rar", ".7z"]

/-- The `api_patterns` list of lines 2989-2993, verbatim. -/
def api_patterns : List String :=
  ["/api/", "/oembed/", "/feed/", "/rss/", "/json/", "/xml/",
   "/download/", "/static/", "/assets/", "/wp-json/",
   "/wp-content/", "/wp-includes/"]

/-- The `allowed_patterns` list of the ynet special case, lines 3034-3035. -/
def ynet_allowed : List String :=
  ["/category/", "/article/", "/articles/", "/news/",
   "/home/", "/health/", "/sport/", "/economy/", "/tech/"]

/-- Translation of `WebCrawler.should_crawl_url` (lines 2929-3040), rule for
rule in source order. The trailing ynet conditional is kept verbatim even
though both of its branches return `True`, as in the source. -/
def should_crawl_url (cfg : CrawlConfig) (s : CrawlState) (url : String) : Bool :=
  if url ∈ s.visited_urls ∨ url ∈ s.failed_urls then false
  else if !(domain_check (base_domain cfg) (netlocStr url)) then false
  else if excluded_extensions.any (fun ext => sfxCL ext.data (lowerCL url.data)) then false
  else if api_patterns.any (fun p => subCL p.data (lowerCL url.data)) then false
  else if cfg.exclude_patterns.any (fun p => p url) then false
  else if !cfg.include_patterns.isEmpty && !(cfg.include_patterns.any (fun p => p url)) then
    false
  else if containsChar '#' url.data && fragBase url ∈ s.visited_urls then false
  else if containsChar '?' url.data &&
      (150 < (queryStr url).length || 8 < ampCount (queryStr url)) then false
  else if 750 < url.length then false
  else if subCL "ynet".data (lowerCL url.data) then
    if ynet_allowed.any (fun p => subCL p.data (lowerCL url.data)) then true else true
  else true

/-! ### The analyzer/filesystem oracle -/

/-- What the per-URL analysis pipeline yields to the loop body.
`raised` models an exception escaping `self._analyze_page` into the
`except` clause of `crawl` (lines 3109-3112). `failed` models
`self.analyzer.analyze_url` returning `None` or raising inside
`_analyze_page`'s own `try` (lines 3237-3274): `_analyze_page` then writes
a fixed placeholder `full_page.html` and still returns the result
directory. `ok content` models a successful analysis, where `content` is
`none` when `_get_page_content` finds no readable `full_page.html` (or an
empty one, which is equally falsy at line 3094), and `some links` when the
markup is read back and `extract_links` returns `links` for it. -/
inductive AnalyzeResult where
  | raised
  | failed
  | ok (content : Option (List String))
deriving DecidableEq

/-- Links `extract_links` finds in the placeholder markup `_analyze_page`
writes on analysis failure (lines 3240-3242 and 3267-3270). That markup is
a fixed page with no `href` attribute, so the extraction regex matches
nothing, provided the analyzed URL does not itself contain the text
`href=` (no URL admitted by `should_crawl_url`'s scheme-bearing inputs in
this development does). -/
def placeholder_links (_url : String) : List String := []

/-! ### The crawl loop (`WebCrawler.crawl`, lines 3042-3115) -/

/-- Lines 3079-3086: store the result entry for the page (with
`page_number = self.pages_crawled + 1`) and increment `pages_crawled`. -/
def recordResult (s : CrawlState) (url : String) (depth : Nat) : CrawlState :=
  { s with results := s.results ++ [(url, depth, s.pages_crawled + 1)]
           pages_crawled := s.pages_crawled + 1 }

/-- Lines 3098-3103: the `for link in links` body — push each link passing
`should_crawl_url` onto the queue and assign `url_to_depth[link] = depth + 1`.
The filter reads only `visited_urls` and `failed_urls`, which the loop does
not modify, so threading the updated state is faithful to the source. -/
def enqueue_links (cfg : CrawlConfig) (depth : Nat) : List String → CrawlState → CrawlState
  | [], s => s
  | link :: more, s =>
    if should_crawl_url cfg s link then
      enqueue_links cfg depth more
        { s with urls_to_visit := s.urls_to_visit ++ [link]
                 url_to_depth := alist_set s.url_to_depth link (depth + 1) }
    else enqueue_links cfg depth more s

/-- Lines 3088-3103: after the result is recorded, skip link extraction
when `current_depth >= self.max_depth`; otherwise read the page content
and enqueue the extracted links (nothing when the content is unreadable). -/
def stepAfterRecord (cfg : CrawlConfig) (s : CrawlState) (depth : Nat)
    (content : Option (List String)) : CrawlState :=
  if cfg.max_depth ≤ depth then s
  else
    match content with
    | none => s
    | some links => enqueue_links cfg depth links s

/-- One iteration of the `while` body of `crawl` (lines 3054-3112):
pop the head URL, read its depth, skip it when already visited, otherwise
mark it visited, run the analysis pipeline (recording the ghost `analyzed`
entry), and continue per the oracle's outcome. On `raised` the `except`
clause adds the URL to `failed_urls` and nothing else changes. -/
def crawlStep (cfg : CrawlConfig) (env : String → AnalyzeResult) (s : CrawlState) :
    CrawlState :=
  match s.urls_to_visit with
  | [] => s
  | current_url :: rest =>
    let current_depth := depthOf s current_url
    if current_url ∈ s.visited_urls then
      { s with urls_to_visit := rest }
    else
      let s1 : CrawlState :=
        { s with urls_to_visit := rest
                 visited_urls := current_url :: s.visited_urls
                 analyzed := current_url :: s.analyzed }
      match env current_url with
      | AnalyzeResult.raised =>
        { s1 with failed_urls := current_url :: s1.failed_urls }
      | AnalyzeResult.failed =>
        stepAfterRecord cfg (recordResult s1 current_url current_depth) current_depth
          (some (placeholder_links current_url))
      | AnalyzeResult.ok content =>
        stepAfterRecord cfg (recordResult s1 current_url current_depth) current_depth
          content

/-- The `while` guard of line 3053: `self.urls_to_visit and
self.pages_crawled < self.max_pages`. There is no other condition. -/
def loopGuard (cfg : CrawlConfig) (s : CrawlState) : Bool :=
  !s.urls_to_visit.isEmpty && decide (s.pages_crawled < cfg.max_pages)

/-- States of one crawl session: the initial state, plus everything the
loop can step to while its guard holds. -/
inductive Reachable (cfg : CrawlConfig) (env : String → AnalyzeResult) :
    CrawlState → Prop where
  | init : Reachable cfg env (initState cfg)
  | step {s : CrawlState} : Reachable cfg env s → loopGuard cfg s = true →
      Reachable cfg env (crawlStep cfg env s)

/-! ### Association-list lemmas -/

theorem alist_get_set_self (m : List (String × Nat)) (k : String) (v : Nat) :
    alist_get? (alist_set m k v) k = some v := by
  induction m with
  | nil => simp [alist_set, alist_get?]
  | cons p rest ih =>
    obtain ⟨k', v'⟩ := p
    unfold alist_set
    by_cases h : k' = k
    · rw [if_pos h]; simp [alist_get?]
    · rw [if_neg h]; simpa [alist_get?, h] using ih

theorem alist_get_set_ne (m : List (String × Nat)) (k u : String) (v : Nat)
    (h : k ≠ u) : alist_get? (alist_set m k v) u = alist_get? m u := by
  induction m with
  | nil => simp [alist_set, alist_get?, h]
  | cons p rest ih =>
    obtain ⟨k', v'⟩ := p
    unfold alist_set
    by_cases hk : k' = k
    · subst hk
      rw [if_pos rfl]
      simp [alist_get?, h]
    · rw [if_neg hk]
      by_cases hu : k' = u
      · simp [alist_get?, hu]
      · simpa [alist_get?, hu] using ih

/-! ### Filtering-policy lemmas -/

/-- Rule 1 of `should_crawl_url` (line 2932): a URL already in
`visited_urls` is rejected. -/
theorem should_crawl_url_of_visited (cfg : CrawlConfig) (s : CrawlState) (url : String)
    (h : url ∈ s.visited_urls) : should_crawl_url cfg s url = false := by
  unfold should_crawl_url
  rw [if_pos (Or.inl h)]

/-- Contrapositive form: an accepted URL is not yet visited. -/
theorem not_visited_of_should_crawl (cfg : CrawlConfig) (s : CrawlState) (url : String)
    (h : should_crawl_url cfg s url = true) : url ∉ s.visited_urls := by
  intro hv
  rw [should_crawl_url_of_visited cfg s url hv] at h
  simp at h

/-- A URL whose netloc fails the domain check of lines 2940-2960 is rejected
by `should_crawl_url`, provided the earlier visited/failed rule does not
fire first. -/
theorem should_crawl_url_domain_reject (cfg : CrawlConfig) (s : CrawlState) (url : String)
    (h1 : url ∉ s.visited_urls) (h2 : url ∉ s.failed_urls)
    (hd : domain_check (base_domain cfg) (netlocStr url) = false) :
    should_crawl_url cfg s url = false := by
  unfold should_crawl_url
  rw [if_neg (by simp [h1, h2]), hd]
  simp

/-! ### `enqueue_links` lemmas -/

/-- The enqueue loop of lines 3098-3103 touches only the queue and the depth
map: visited/failed sets, page counter, results and the analyzer history
are untouched. -/
theorem enqueue_links_frozen (cfg : CrawlConfig) (d : Nat) (ls : List String) :
    ∀ s : CrawlState,
      (enqueue_links cfg d ls s).visited_urls = s.visited_urls ∧
      (enqueue_links cfg d ls s).failed_urls = s.failed_urls ∧
      (enqueue_links cfg d ls s).pages_crawled = s.pages_crawled ∧
      (enqueue_links cfg d ls s).results = s.results ∧
      (enqueue_links cfg d ls s).analyzed = s.analyzed := by
  induction ls with
  | nil => intro s; simp [enqueue_links]
  | cons l ls ih =>
    intro s
    unfold enqueue_links
    split
    · exact ih _
    · exact ih s

/-- Every depth binding after the enqueue loop is either the binding held
before it, or the `depth + 1` the loop assigns. -/
theorem enqueue_links_get (cfg : CrawlConfig) (d : Nat) (ls : List String) :
    ∀ (s : CrawlState) (u : String),
      alist_get? (enqueue_links cfg d ls s).url_to_depth u = alist_get? s.url_to_depth u ∨
      alist_get? (enqueue_links cfg d ls s).url_to_depth u = some (d + 1) := by
  induction ls with
  | nil => intro s u; left; simp [enqueue_links]
  | cons l ls ih =>
    intro s u
    unfold enqueue_links
    split
    · rcases ih _ u with h | h
      · rw [h]
        by_cases hl : l = u
        · subst hl; right; exact alist_get_set_self _ _ _
        · left; exact alist_get_set_ne _ _ _ _ hl
      · right; exact h
    · exact ih s u

/-- A binding already equal to `depth + 1` survives the enqueue loop. -/
theorem enqueue_links_keeps (cfg : CrawlConfig) (d : Nat) (ls : List String) :
    ∀ (s : CrawlState) (u : String),
      alist_get? s.url_to_depth u = some (d + 1) →
      alist_get? (enqueue_links cfg d ls s).url_to_depth u = some (d + 1) := by
  induction ls with
  | nil => intro s u h; simpa [enqueue_links] using h
  | cons l ls ih =>
    intro s u h
    unfold enqueue_links
    split
    · apply ih
      by_cases hl : l = u
      · subst hl; exact alist_get_set_self _ _ _
      · rw [alist_get_set_ne _ _ _ _ hl]; exact h
    · exact ih s u h

/-- Every member of the queue after the enqueue loop either was already
queued, or is a fresh link whose recorded depth is `depth + 1`. -/
theorem enqueue_links_frontier (cfg : CrawlConfig) (d : Nat) (ls : List String) :
    ∀ (s : CrawlState) (u : String),
      u ∈ (enqueue_links cfg d ls s).urls_to_visit →
      u ∈ s.urls_to_visit ∨
      alist_get? (enqueue_links cfg d ls s).url_to_depth u = some (d + 1) := by
  induction ls with
  | nil => intro s u h; left; simpa [enqueue_links] using h
  | cons l ls ih =>
    intro s u h
    unfold enqueue_links at h ⊢
    split at h
    next hsc =>
      rcases ih _ u h with hmem | hget
      · simp only [List.mem_append, List.mem_singleton] at hmem
        rcases hmem with hmem | rfl
        · left; exact hmem
        · right
          rw [if_pos hsc]
          exact enqueue_links_keeps cfg d ls _ u (alist_get_set_self _ _ _)
      · right; rw [if_pos hsc]; exact hget
    next hsc =>
      rcases ih s u h with hmem | hget
      · left; exact hmem
      · right; rw [if_neg hsc]; exact hget

/-- The start URL's depth binding survives the enqueue loop once the start
URL has been visited, because rule 1 of the filter rejects visited URLs. -/
theorem enqueue_links_start (cfg : CrawlConfig) (d : Nat) (ls : List String) :
    ∀ s : CrawlState, cfg.start_url ∈ s.visited_urls →
      alist_get? (enqueue_links cfg d ls s).url_to_depth cfg.start_url =
        alist_get? s.url_to_depth cfg.start_url := by
  induction ls with
  | nil => intro s _; simp [enqueue_links]
  | cons l ls ih =>
    intro s hv
    unfold enqueue_links
    split
    next hsc =>
      have hl : l ≠ cfg.start_url := by
        intro hEq
        exact not_visited_of_should_crawl cfg s l hsc (hEq ▸ hv)
      rw [ih _ (by simpa using hv)]
      exact alist_get_set_ne _ _ _ _ hl
    next => exact ih s hv

/-! ### Step-equation lemmas for `crawlStep` -/

/-- Lines 3059-3060: a popped URL that is already visited is skipped — the
iteration removes it from the queue and changes nothing else; in
particular `_analyze_page` is not invoked (the ghost history is
unchanged). -/
theorem crawlStep_skip (cfg : CrawlConfig) (env : String → AnalyzeResult)
    (s : CrawlState) (url : String) (rest : List String)
    (hfr : s.urls_to_visit = url :: rest) (hv : url ∈ s.visited_urls) :
    crawlStep cfg env s = { s with urls_to_visit := rest } := by
  unfold crawlStep
  rw [hfr]
  simp [hv]

/-- Lines 3109-3112: when the analysis step raises, the `except` clause adds
the URL to `failed_urls`; no result is stored, the page counter does not
move, and nothing is enqueued. -/
theorem crawlStep_raised (cfg : CrawlConfig) (env : String → AnalyzeResult)
    (s : CrawlState) (url : String) (rest : List String)
    (hfr : s.urls_to_visit = url :: rest) (hv : url ∉ s.visited_urls)
    (he : env url = AnalyzeResult.raised) :
    crawlStep cfg env s =
      { s with urls_to_visit := rest
               visited_urls := url :: s.visited_urls
               analyzed := url :: s.analyzed
               failed_urls := url :: s.failed_urls } := by
  unfold crawlStep
  rw [hfr]
  simp [hv, he]

/-- Analyzer-failure iteration (lines 3074-3103 with `analyze_url` failing
inside `_analyze_page`): the placeholder markup yields no links, so the
iteration stores the placeholder result, consumes one page of budget,
enqueues nothing, and leaves `failed_urls` unchanged. -/
theorem crawlStep_failed (cfg : CrawlConfig) (env : String → AnalyzeResult)
    (s : CrawlState) (url : String) (rest : List String)
    (hfr : s.urls_to_visit = url :: rest) (hv : url ∉ s.visited_urls)
    (he : env url = AnalyzeResult.failed) :
    crawlStep cfg env s =
      { s with urls_to_visit := rest
               visited_urls := url :: s.visited_urls
               analyzed := url :: s.analyzed
               results := s.results ++ [(url, depthOf s url, s.pages_crawled + 1)]
               pages_crawled := s.pages_crawled + 1 } := by
  unfold crawlStep
  rw [hfr]
  simp only [hv, if_neg, ite_false, he]
  simp [stepAfterRecord, recordResult, placeholder_links, enqueue_links]

/-- Unreadable-markup iteration (lines 3092-3094 with `_get_page_content`
returning `None`): the result is stored and budget consumed as on any
success, nothing is enqueued, and `failed_urls` is unchanged. -/
theorem crawlStep_ok_none (cfg : CrawlConfig) (env : String → AnalyzeResult)
    (s : CrawlState) (url : String) (rest : List String)
    (hfr : s.urls_to_visit = url :: rest) (hv : url ∉ s.visited_urls)
    (he : env url = AnalyzeResult.ok none) :
    crawlStep cfg env s =
      { s with urls_to_visit := rest
               visited_urls := url :: s.visited_urls
               analyzed := url :: s.analyzed
               results := s.results ++ [(url, depthOf s url, s.pages_crawled + 1)]
               pages_crawled := s.pages_crawled + 1 } := by
  unfold crawlStep
  rw [hfr]
  simp only [hv, if_neg, ite_false, he]
  simp [stepAfterRecord, recordResult]

/-- Successful iteration below the depth ceiling with readable markup
(lines 3074-3103): result stored, budget consumed, surviving links
enqueued at `depth + 1`. -/
theorem crawlStep_ok_some (cfg : CrawlConfig) (env : String → AnalyzeResult)
    (s : CrawlState) (url : String) (rest : List String) (links : List String)
    (hfr : s.urls_to_visit = url :: rest) (hv : url ∉ s.visited_urls)
    (he : env url = AnalyzeResult.ok (some links))
    (hd : ¬ cfg.max_depth ≤ depthOf s url) :
    crawlStep cfg env s =
      enqueue_links cfg (depthOf s url) links
        { s with urls_to_visit := rest
                 visited_urls := url :: s.visited_urls
                 analyzed := url :: s.analyzed
                 results := s.results ++ [(url, depthOf s url, s.pages_crawled + 1)]
                 pages_crawled := s.pages_crawled + 1 } := by
  unfold crawlStep
  rw [hfr]
  simp only [hv, if_neg, ite_false, he]
  simp [stepAfterRecord, recordResult, hd]

/-- Lines 3088-3090: whatever the analysis outcome, an iteration whose
popped URL sits at depth `>= max_depth` extracts nothing — the queue after
the step is exactly the remaining queue — and the URL ends up visited. -/
theorem crawlStep_at_max (cfg : CrawlConfig) (env : String → AnalyzeResult)
    (s : CrawlState) (url : String) (rest : List String)
    (hfr : s.urls_to_visit = url :: rest) (hd : cfg.max_depth ≤ depthOf s url) :
    (crawlStep cfg env s).urls_to_visit = rest ∧
    url ∈ (crawlStep cfg env s).visited_urls := by
  by_cases hv : url ∈ s.visited_urls
  · rw [crawlStep_skip cfg env s url rest hfr hv]
    exact ⟨rfl, hv⟩
  · unfold crawlStep
    rw [hfr]
    simp only [hv, if_neg, ite_false]
    cases he : env url with
    | raised => simp [he]
    | failed => simp [he, stepAfterRecord, recordResult, hd]
    | ok content => simp [he, stepAfterRecord, recordResult, hd]

/-- An empty queue makes the step (vacuously) the identity; the loop guard
prevents this case from ever being taken. -/
theorem crawlStep_nil (cfg : CrawlConfig) (env : String → AnalyzeResult)
    (s : CrawlState) (hfr : s.urls_to_visit = []) : crawlStep cfg env s = s := by
  unfold crawlStep
  rw [hfr]

/-- Successful analysis at or above the depth ceiling (`current_depth >=
self.max_depth`, lines 3088-3090): result stored, budget consumed, and the
`continue` skips link extraction entirely, whatever the page content. -/
theorem crawlStep_ok_max (cfg : CrawlConfig) (env : String → AnalyzeResult)
    (s : CrawlState) (url : String) (rest : List String)
    (content : Option (List String))
    (hfr : s.urls_to_visit = url :: rest) (hv : url ∉ s.visited_urls)
    (he : env url = AnalyzeResult.ok content)
    (hd : cfg.max_depth ≤ depthOf s url) :
    crawlStep cfg env s =
      { s with urls_to_visit := rest
               visited_urls := url :: s.visited_urls
               analyzed := url :: s.analyzed
               results := s.results ++ [(url, depthOf s url, s.pages_crawled + 1)]
               pages_crawled := s.pages_crawled + 1 } := by
  unfold crawlStep
  rw [hfr]
  simp only [hv, if_neg, ite_false, he]
  simp [stepAfterRecord, recordResult, hd]

/-- Each iteration increments the page counter at most once
(lines 3074-3086: the single `self.pages_crawled += 1`). -/
theorem crawlStep_pages_le (cfg : CrawlConfig) (env : String → AnalyzeResult)
    (s : CrawlState) :
    (crawlStep cfg env s).pages_crawled ≤ s.pages_crawled + 1 := by
  cases hfr : s.urls_to_visit with
  | nil => rw [crawlStep_nil cfg env s hfr]; exact Nat.le_succ _
  | cons url rest =>
    by_cases hv : url ∈ s.visited_urls
    · rw [crawlStep_skip cfg env s url rest hfr hv]; exact Nat.le_succ _
    · cases he : env url with
      | raised =>
        rw [crawlStep_raised cfg env s url rest hfr hv he]; exact Nat.le_succ _
      | failed => rw [crawlStep_failed cfg env s url rest hfr hv he]
      | ok content =>
        by_cases hd : cfg.max_depth ≤ depthOf s url
        · rw [crawlStep_ok_max cfg env s url rest content hfr hv he hd]
        · cases content with
          | none => rw [crawlStep_ok_none cfg env s url rest hfr hv he]
          | some links =>
            rw [crawlStep_ok_some cfg env s url rest links hfr hv he hd]
            rw [(enqueue_links_frozen cfg _ links _).2.2.1]

/-- The guard of line 3053 holds exactly when the queue is non-empty and
the page budget is not yet consumed; nothing else is consulted. -/
theorem loopGuard_spec (cfg : CrawlConfig) (s : CrawlState) :
    loopGuard cfg s = true ↔
      (s.urls_to_visit ≠ [] ∧ s.pages_crawled < cfg.max_pages) := by
  unfold loopGuard
  cases h : s.urls_to_visit <;> simp [h]

/-- Under the loop guard, an iteration either leaves the counter unchanged
and strictly shortens the queue, or increments the counter by one. Used
for the termination measure of the loop. -/
theorem crawlStep_cases (cfg : CrawlConfig) (env : String → AnalyzeResult)
    (s : CrawlState) (h : loopGuard cfg s = true) :
    ((crawlStep cfg env s).pages_crawled = s.pages_crawled ∧
      (crawlStep cfg env s).urls_to_visit.length + 1 = s.urls_to_visit.length) ∨
    (crawlStep cfg env s).pages_crawled = s.pages_crawled + 1 := by
  obtain ⟨hne, _⟩ := (loopGuard_spec cfg s).mp h
  cases hfr : s.urls_to_visit with
  | nil => exact absurd hfr hne
  | cons url rest =>
    by_cases hv : url ∈ s.visited_urls
    · rw [crawlStep_skip cfg env s url rest hfr hv]
      left
      exact ⟨rfl, by simp [hfr]⟩
    · cases he : env url with
      | raised =>
        rw [crawlStep_raised cfg env s url rest hfr hv he]
        left
        exact ⟨rfl, by simp [hfr]⟩
      | failed =>
        rw [crawlStep_failed cfg env s url rest hfr hv he]
        right
        rfl
      | ok content =>
        right
        by_cases hd : cfg.max_depth ≤ depthOf s url
        · rw [crawlStep_ok_max cfg env s url rest content hfr hv he hd]
        · cases content with
          | none => rw [crawlStep_ok_none cfg env s url rest hfr hv he]
          | some links =>
            rw [crawlStep_ok_some cfg env s url rest links hfr hv he hd]
            exact (enqueue_links_frozen cfg _ links _).2.2.1

/-! ### The session invariant -/

/-- Invariant holding in every state of a crawl session. -/
structure Inv (cfg : CrawlConfig) (s : CrawlState) : Prop where
  visited_nodup : s.visited_urls.Nodup
  analyzed_eq : s.analyzed = s.visited_urls
  pages_le : s.pages_crawled ≤ cfg.max_pages
  frontier_depths : ∀ u ∈ s.urls_to_visit,
    ∃ d, alist_get? s.url_to_depth u = some d ∧ d ≤ cfg.max_depth
  start_depth : alist_get? s.url_to_depth cfg.start_url = some 0
  start_visited : cfg.start_url ∈ s.visited_urls ∨ s = initState cfg

theorem inv_init (cfg : CrawlConfig) : Inv cfg (initState cfg) := by
  refine ⟨List.nodup_nil, rfl, Nat.zero_le _, ?_, ?_, Or.inr rfl⟩
  · intro u hu
    simp only [initState, List.mem_singleton] at hu
    subst hu
    exact ⟨0, by simp [alist_get?], Nat.zero_le _⟩
  · simp [initState, alist_get?]

theorem inv_step (cfg : CrawlConfig) (env : String → AnalyzeResult)
    (s : CrawlState) (hI : Inv cfg s) (hg : loopGuard cfg s = true) :
    Inv cfg (crawlStep cfg env s) := by
  obtain ⟨hne, hlt⟩ := (loopGuard_spec cfg s).mp hg
  cases hfr : s.urls_to_visit with
  | nil => exact absurd hfr hne
  | cons url rest =>
    have hrest : ∀ u ∈ rest, ∃ d, alist_get? s.url_to_depth u = some d ∧ d ≤ cfg.max_depth :=
      fun u hu => hI.frontier_depths u (by rw [hfr]; exact List.mem_cons_of_mem _ hu)
    by_cases hv : url ∈ s.visited_urls
    · rw [crawlStep_skip cfg env s url rest hfr hv]
      have hsv : cfg.start_url ∈ s.visited_urls := by
        rcases hI.start_visited with h | h
        · exact h
        · rw [h] at hv; simp [initState] at hv
      exact ⟨hI.visited_nodup, hI.analyzed_eq, hI.pages_le, hrest, hI.start_depth,
        Or.inl hsv⟩
    · have hnodup : (url :: s.visited_urls).Nodup := hI.visited_nodup.cons hv
      have hag : url :: s.analyzed = url :: s.visited_urls := by rw [hI.analyzed_eq]
      have hsv : cfg.start_url ∈ url :: s.visited_urls := by
        rcases hI.start_visited with h | h
        · exact List.mem_cons_of_mem _ h
        · have : url = cfg.start_url := by
            rw [h, initState] at hfr
            exact (List.cons_eq_cons.mp hfr).1.symm
          rw [this]; exact List.mem_cons_self _ _
      cases he : env url with
      | raised =>
        rw [crawlStep_raised cfg env s url rest hfr hv he]
        exact ⟨hnodup, hag, hI.pages_le, hrest, hI.start_depth, Or.inl hsv⟩
      | failed =>
        rw [crawlStep_failed cfg env s url rest hfr hv he]
        exact ⟨hnodup, hag, hlt, hrest, hI.start_depth, Or.inl hsv⟩
      | ok content =>
        by_cases hd : cfg.max_depth ≤ depthOf s url
        · rw [crawlStep_ok_max cfg env s url rest content hfr hv he hd]
          exact ⟨hnodup, hag, hlt, hrest, hI.start_depth, Or.inl hsv⟩
        · cases content with
          | none =>
            rw [crawlStep_ok_none cfg env s url rest hfr hv he]
            exact ⟨hnodup, hag, hlt, hrest, hI.start_depth, Or.inl hsv⟩
          | some links =>
            rw [crawlStep_ok_some cfg env s url rest links hfr hv he hd]
            set s2 : CrawlState :=
              { s with urls_to_visit := rest
                       visited_urls := url :: s.visited_urls
                       analyzed := url :: s.analyzed
                       results := s.results ++ [(url, depthOf s url, s.pages_crawled + 1)]
                       pages_crawled := s.pages_crawled + 1 } with hs2
            obtain ⟨hfv, hff, hfp, hfrz, hfa⟩ :=
              enqueue_links_frozen cfg (depthOf s url) links s2
            have hd1 : depthOf s url + 1 ≤ cfg.max_depth := Nat.lt_of_not_le hd
            refine ⟨?_, ?_, ?_, ?_, ?_, ?_⟩
            · rw [hfv]; exact hnodup
            · rw [hfa, hfv]; exact hag
            · rw [hfp]; exact hlt
            · intro u hu
              rcases enqueue_links_frontier cfg (depthOf s url) links s2 u hu with hmem | hget
              · rcases enqueue_links_get cfg (depthOf s url) links s2 u with hgs | hgs
                · obtain ⟨d, hda, hdb⟩ := hrest u hmem
                  exact ⟨d, by rw [hgs]; exact hda, hdb⟩
                · exact ⟨depthOf s url + 1, hgs, hd1⟩
              · exact ⟨depthOf s url + 1, hget, hd1⟩
            · rw [enqueue_links_start cfg (depthOf s url) links s2 hsv]
              exact hI.start_depth
            · rw [hfv]; exact Or.inl hsv

/-- Every reachable state of a crawl session satisfies the invariant. -/
theorem reachable_inv (cfg : CrawlConfig) (env : String → AnalyzeResult)
    (s : CrawlState) (h : Reachable cfg env s) : Inv cfg s := by
  induction h with
  | init => exact inv_init cfg
  | step hr hg ih => exact inv_step cfg env _ ih hg

/-! ### The full loop and the crawl report
(`WebCrawler.crawl` lines 3042-3115, `_generate_crawl_report` lines 3117-3192) -/

/-- The `while` loop of lines 3053-3112, run to completion. Terminates
because each iteration either consumes page budget or shortens the queue
without touching the counter. -/
def crawlLoop (cfg : CrawlConfig) (env : String → AnalyzeResult) (s : CrawlState) :
    CrawlState :=
  if h : loopGuard cfg s = true then crawlLoop cfg env (crawlStep cfg env s) else s
termination_by (cfg.max_pages - s.pages_crawled, s.urls_to_visit.length)
decreasing_by
  rcases crawlStep_cases cfg env s h with ⟨hp, hl⟩ | hp
  · rw [hp]
    exact Prod.Lex.right _ (by omega)
  · have hlt : s.pages_crawled < cfg.max_pages := ((loopGuard_spec cfg s).mp h).2
    exact Prod.Lex.left _ _ (by omega)

/-- The loop only stops with its guard false. -/
theorem crawlLoop_not_guard (cfg : CrawlConfig) (env : String → AnalyzeResult)
    (s : CrawlState) : loopGuard cfg (crawlLoop cfg env s) = false := by
  by_cases h : loopGuard cfg s = true
  · rw [crawlLoop, dif_pos h]
    exact crawlLoop_not_guard cfg env (crawlStep cfg env s)
  · rw [crawlLoop, dif_neg h]
    simpa using h
termination_by (cfg.max_pages - s.pages_crawled, s.urls_to_visit.length)
decreasing_by
  rcases crawlStep_cases cfg env s h with ⟨hp, hl⟩ | hp
  · rw [hp]
    exact Prod.Lex.right _ (by omega)
  · have hlt : s.pages_crawled < cfg.max_pages := ((loopGuard_spec cfg s).mp h).2
    exact Prod.Lex.left _ _ (by omega)

/-- Running the loop from a reachable state only visits reachable states. -/
theorem reachable_crawlLoop (cfg : CrawlConfig) (env : String → AnalyzeResult)
    (s : CrawlState) (hr : Reachable cfg env s) :
    Reachable cfg env (crawlLoop cfg env s) := by
  by_cases h : loopGuard cfg s = true
  · rw [crawlLoop, dif_pos h]
    exact reachable_crawlLoop cfg env (crawlStep cfg env s) (Reachable.step hr h)
  · rw [crawlLoop, dif_neg h]
    exact hr
termination_by (cfg.max_pages - s.pages_crawled, s.urls_to_visit.length)
decreasing_by
  rcases crawlStep_cases cfg env s h with ⟨hp, hl⟩ | hp
  · rw [hp]
    exact Prod.Lex.right _ (by omega)
  · have hlt : s.pages_crawled < cfg.max_pages := ((loopGuard_spec cfg s).mp h).2
    exact Prod.Lex.left _ _ (by omega)

/-- Crawl report of `_generate_crawl_report` (lines 3125-3134). The
wall-clock `duration_seconds` field is real time and is not modelled; the
`failed` field keeps up to 100 failed URLs as at line 3133. -/
structure CrawlReport where
  start_url : String
  pages_crawled : Nat
  max_depth : Nat
  visited_count : Nat
  failed_count : Nat
  pages : List (String × Nat × Nat)
  failed_sample : List String
deriving DecidableEq

/-- Pure content of `_generate_crawl_report` applied to a final state. -/
def generate_crawl_report (cfg : CrawlConfig) (s : CrawlState) : CrawlReport :=
  { start_url := cfg.start_url
    pages_crawled := s.pages_crawled
    max_depth := cfg.max_depth
    visited_count := s.visited_urls.length
    failed_count := s.failed_urls.length
    pages := s.results
    failed_sample := s.failed_urls.take 100 }

/-- `WebCrawler.crawl` as a whole: initialize, run the loop to exhaustion,
then unconditionally generate the report (lines 3114-3115 run after the
`while`, whatever made it exit). -/
def crawl (cfg : CrawlConfig) (env : String → AnalyzeResult) :
    CrawlState × CrawlReport :=
  let final := crawlLoop cfg env (initState cfg)
  (final, generate_crawl_report cfg final)

/-! ### Output location allocator
(`WebCrawler._create_url_based_directory`, lines 3276-3312) -/

/-- Formatted pieces the allocator reads from `datetime.now()`:
`today.strftime("%Y/%m/%d")` and `today.strftime("%H%M%S")` — the time
suffix has one-second resolution. -/
structure DirTimestamp where
  date_path : String
  time_str : String
deriving DecidableEq

/-- Python `s.strip('_')` on character lists. -/
def stripUnderscoreCL (l : List Char) : List Char :=
  ((l.dropWhile (fun c => c == '_')).reverse.dropWhile (fun c => c == '_')).reverse

/-- Domain component: `parsed_url.netloc.replace(".", "_").replace(":", "_")`
(line 3289). -/
def dirDomain (url : String) : String :=
  String.mk ((netlocCL url.data).map (fun c => if c == '.' || c == ':' then '_' else c))

/-- Path component: `parsed_url.path.replace("/", "_").strip("_")`, with
`"homepage"` when empty (lines 3290-3292). -/
def dirPath (url : String) : String :=
  let p := stripUnderscoreCL ((pathCL url.data).map (fun c => if c == '/' then '_' else c))
  if p.isEmpty then "homepage" else String.mk p

/-- Translation of `_create_url_based_directory` (lines 3276-3312):
`os.path.join(base_output_dir, date_path, domain, path + "_" + timestamp)`
with POSIX separators. There is no sequence number; the only
collision-breaking ingredient is the second-resolution `%H%M%S` string. -/
def create_url_based_directory (base_output_dir : String) (url : String)
    (now : DirTimestamp) : String :=
  base_output_dir ++ "/" ++ now.date_path ++ "/" ++ dirDomain url ++ "/" ++
    dirPath url ++ "_" ++ now.time_str

/-! ### Concrete session fixtures used by witnesses and counterexamples -/

/-- Start URL of the concrete sessions below. -/
def urlA : String := "https://a.example.com/"

/-- A page of the concrete site, linked from the start page. -/
def urlB : String := "https://a.example.com/b"

/-- A page of the concrete site, linked from both `urlA` and `urlB`. -/
def urlC : String := "https://a.example.com/c"

/-- Concrete configuration: depth 2, page budget 10, no user patterns. -/
def cfg0 : CrawlConfig :=
  { start_url := urlA, max_depth := 2, max_pages := 10,
    exclude_patterns := [], include_patterns := [] }

/-- Same site with `depth` option 0: the start page is analyzed but no links
are extracted from it. -/
def cfgD0 : CrawlConfig :=
  { start_url := urlA, max_depth := 0, max_pages := 10,
    exclude_patterns := [], include_patterns := [] }

/-- Oracle of a healthy site: the start page links to `urlB` and `urlC`,
`urlB` links to `urlC` again, every other page has unreadable markup. -/
def env0 : String → AnalyzeResult := fun u =>
  if u = urlB then AnalyzeResult.ok (some [urlC])
  else if u = urlA then AnalyzeResult.ok (some [urlB, urlC])
  else AnalyzeResult.ok none

/-- Oracle of a site whose analyzer fails on every page
(`analyze_url` returns `None`). -/
def envFail : String → AnalyzeResult := fun _ => AnalyzeResult.failed

/-- Oracle of a site whose pages analyze fine but whose saved markup is
never readable back. -/
def envNone : String → AnalyzeResult := fun _ => AnalyzeResult.ok none

/-! ### Claim theorems -/

/-- Claim C1: in every session state, no URL has been added to the visited
set twice and `_analyze_page` has never been invoked twice for the same
URL; and whenever the popped queue head is already visited, the iteration
only discards it — the state is otherwise untouched and the analyzer is
not invoked. -/
theorem claim_c1 (cfg : CrawlConfig) (env : String → AnalyzeResult)
    (s : CrawlState) (h : Reachable cfg env s) :
    s.visited_urls.Nodup ∧ s.analyzed.Nodup ∧
    ∀ url rest, s.urls_to_visit = url :: rest → url ∈ s.visited_urls →
      crawlStep cfg env s = { s with urls_to_visit := rest } := by
  have hI := reachable_inv cfg env s h
  exact ⟨hI.visited_nodup, hI.analyzed_eq ▸ hI.visited_nodup,
    fun url rest hfr hv => crawlStep_skip cfg env s url rest hfr hv⟩

/-- Concrete instance of C1 at the initial state of the `cfg0`/`env0`
session. -/
theorem claim_c1_witness :
    Reachable cfg0 env0 (initState cfg0) ∧
    ((initState cfg0).visited_urls.Nodup ∧ (initState cfg0).analyzed.Nodup ∧
      ∀ url rest, (initState cfg0).urls_to_visit = url :: rest →
        url ∈ (initState cfg0).visited_urls →
        crawlStep cfg0 env0 (initState cfg0) =
          { initState cfg0 with urls_to_visit := rest }) :=
  ⟨Reachable.init, claim_c1 cfg0 env0 (initState cfg0) Reachable.init⟩

/-- Claim C2: in every session state the number of pages processed is at
most `max_pages`; an iteration increments the counter by at most one; and
the loop guard only admits another iteration while the counter is strictly
below `max_pages`. -/
theorem claim_c2 (cfg : CrawlConfig) (env : String → AnalyzeResult)
    (s : CrawlState) (h : Reachable cfg env s) :
    s.pages_crawled ≤ cfg.max_pages ∧
    (crawlStep cfg env s).pages_crawled ≤ s.pages_crawled + 1 ∧
    (loopGuard cfg s = true → s.pages_crawled < cfg.max_pages) :=
  ⟨(reachable_inv cfg env s h).pages_le, crawlStep_pages_le cfg env s,
    fun hg => ((loopGuard_spec cfg s).mp hg).2⟩

/-- Concrete instance of C2 at the initial state of the `cfg0`/`env0`
session. -/
theorem claim_c2_witness :
    Reachable cfg0 env0 (initState cfg0) ∧
    ((initState cfg0).pages_crawled ≤ cfg0.max_pages ∧
      (crawlStep cfg0 env0 (initState cfg0)).pages_crawled ≤
        (initState cfg0).pages_crawled + 1 ∧
      (loopGuard cfg0 (initState cfg0) = true →
        (initState cfg0).pages_crawled < cfg0.max_pages)) :=
  ⟨Reachable.init, claim_c2 cfg0 env0 (initState cfg0) Reachable.init⟩

/-- Claim C5: in every session state each queued URL sits at a recorded
depth of at most `max_depth` (so nothing beyond the ceiling is ever
popped), and an iteration popping a URL whose depth has reached
`max_depth` leaves the rest of the queue unchanged — no children are
contributed — while the URL still ends up in the visited set. -/
theorem claim_c5 (cfg : CrawlConfig) (env : String → AnalyzeResult)
    (s : CrawlState) (h : Reachable cfg env s) :
    (∀ u ∈ s.urls_to_visit,
      ∃ d, alist_get? s.url_to_depth u = some d ∧ d ≤ cfg.max_depth) ∧
    ∀ url rest, s.urls_to_visit = url :: rest → cfg.max_depth ≤ depthOf s url →
      (crawlStep cfg env s).urls_to_visit = rest ∧
      url ∈ (crawlStep cfg env s).visited_urls :=
  ⟨(reachable_inv cfg env s h).frontier_depths,
    fun url rest hfr hd => crawlStep_at_max cfg env s url rest hfr hd⟩

/-- Concrete instance of C5 at the initial state of the depth-0 session,
where the start page itself sits at the ceiling. -/
theorem claim_c5_witness :
    Reachable cfgD0 env0 (initState cfgD0) ∧
    ((∀ u ∈ (initState cfgD0).urls_to_visit,
        ∃ d, alist_get? (initState cfgD0).url_to_depth u = some d ∧
          d ≤ cfgD0.max_depth) ∧
      ∀ url rest, (initState cfgD0).urls_to_visit = url :: rest →
        cfgD0.max_depth ≤ depthOf (initState cfgD0) url →
        (crawlStep cfgD0 env0 (initState cfgD0)).urls_to_visit = rest ∧
        url ∈ (crawlStep cfgD0 env0 (initState cfgD0)).visited_urls) :=
  ⟨Reachable.init, claim_c5 cfgD0 env0 (initState cfgD0) Reachable.init⟩

/-- Claim C10: in every session state — the initial one included, and
preserved by every iteration — each URL of the `urls_to_visit` queue has a
binding in `url_to_depth`, so the unchecked lookup performed right after a
pop never misses. -/
theorem claim_c10 (cfg : CrawlConfig) (env : String → AnalyzeResult)
    (s : CrawlState) (h : Reachable cfg env s) :
    ∀ u ∈ s.urls_to_visit, (alist_get? s.url_to_depth u).isSome = true := by
  intro u hu
  obtain ⟨d, hd, _⟩ := (reachable_inv cfg env s h).frontier_depths u hu
  simp [hd]

/-- Concrete instance of C10 at the initial state of the `cfg0`/`env0`
session. -/
theorem claim_c10_witness :
    Reachable cfg0 env0 (initState cfg0) ∧
    ∀ u ∈ (initState cfg0).urls_to_visit,
      (alist_get? (initState cfg0).url_to_depth u).isSome = true :=
  ⟨Reachable.init, claim_c10 cfg0 env0 (initState cfg0) Reachable.init⟩

/-- Claim C3 as stated is false on the code: a URL rediscovered while it is
still queued has its recorded depth overwritten by the later discovery. In
the `cfg0`/`env0` session, `urlC` is first discovered from the start page
and recorded at depth 1; processing `urlB` rediscovers it and line 3101
overwrites the binding to depth 2, so the recorded depth is not the depth
of first discovery. -/
theorem claim_c3_counterexample :
    alist_get? (crawlStep cfg0 env0 (initState cfg0)).url_to_depth urlC = some 1 ∧
    alist_get?
      (crawlStep cfg0 env0 (crawlStep cfg0 env0 (initState cfg0))).url_to_depth
      urlC = some 2 := by
  constructor <;> decide

/-- Claim C3, amended: the start URL is recorded at depth 0 in every
session state, and every link enqueued by an iteration is recorded at the
popped parent's depth plus one at the moment of discovery; however a
queued URL rediscovered by a later parent has its binding overwritten to
that parent's depth plus one (it is not frozen at first discovery). -/
theorem claim_c3 (cfg : CrawlConfig) (env : String → AnalyzeResult)
    (s : CrawlState) (h : Reachable cfg env s) :
    alist_get? s.url_to_depth cfg.start_url = some 0 ∧
    ∀ url rest, s.urls_to_visit = url :: rest →
      ∀ u ∈ (crawlStep cfg env s).urls_to_visit,
        u ∈ rest ∨
        alist_get? (crawlStep cfg env s).url_to_depth u = some (depthOf s url + 1) := by
  refine ⟨(reachable_inv cfg env s h).start_depth, ?_⟩
  intro url rest hfr u hu
  by_cases hv : url ∈ s.visited_urls
  · rw [crawlStep_skip cfg env s url rest hfr hv] at hu
    exact Or.inl hu
  · cases he : env url with
    | raised =>
      rw [crawlStep_raised cfg env s url rest hfr hv he] at hu
      exact Or.inl hu
    | failed =>
      rw [crawlStep_failed cfg env s url rest hfr hv he] at hu
      exact Or.inl hu
    | ok content =>
      by_cases hd : cfg.max_depth ≤ depthOf s url
      · rw [crawlStep_ok_max cfg env s url rest content hfr hv he hd] at hu
        exact Or.inl hu
      · cases content with
        | none =>
          rw [crawlStep_ok_none cfg env s url rest hfr hv he] at hu
          exact Or.inl hu
        | some links =>
          rw [crawlStep_ok_some cfg env s url rest links hfr hv he hd] at hu ⊢
          exact enqueue_links_frontier cfg (depthOf s url) links _ u hu

/-- Concrete instance of the amended C3: after the first iteration of the
`cfg0`/`env0` session, every queue entry either predates the iteration or
is bound at the start page's depth plus one. -/
theorem claim_c3_witness :
    (Reachable cfg0 env0 (initState cfg0) ∧ (initState cfg0).urls_to_visit = urlA :: []) ∧
    (alist_get? (initState cfg0).url_to_depth cfg0.start_url = some 0 ∧
      ∀ url rest, (initState cfg0).urls_to_visit = url :: rest →
        ∀ u ∈ (crawlStep cfg0 env0 (initState cfg0)).urls_to_visit,
          u ∈ rest ∨
          alist_get? (crawlStep cfg0 env0 (initState cfg0)).url_to_depth u =
            some (depthOf (initState cfg0) url + 1)) :=
  ⟨⟨Reachable.init, rfl⟩, claim_c3 cfg0 env0 (initState cfg0) Reachable.init⟩

/-- Claim C4 as stated is false on the code: when the Page Analyzer fails,
`_analyze_page` recovers internally (placeholder markup, normal return),
so the URL is NOT added to `failed_urls` — that set is only populated by
the `except` clause of `crawl`, which a plain analyzer failure never
reaches. In a session whose analyzer fails on the start page, the step
leaves the failed set empty while still consuming budget. -/
theorem claim_c4_counterexample :
    envFail urlA = AnalyzeResult.failed ∧
    (crawlStep cfg0 envFail (initState cfg0)).failed_urls = [] ∧
    (crawlStep cfg0 envFail (initState cfg0)).pages_crawled = 1 ∧
    (crawlStep cfg0 envFail (initState cfg0)).visited_urls = [urlA] := by
  refine ⟨rfl, ?_, ?_, ?_⟩ <;> decide

/-- Claim C4, amended: for a URL whose Page Analyzer invocation fails, the
iteration records a best-effort placeholder result, still increments
`pages_crawled` by one, enqueues no children (the placeholder markup
yields no links), marks the URL visited so the analyzer is never retried,
and the crawl continues — but the URL is NOT added to the failed set,
which the iteration leaves unchanged. -/
theorem claim_c4 (cfg : CrawlConfig) (env : String → AnalyzeResult)
    (s : CrawlState) (url : String) (rest : List String)
    (hfr : s.urls_to_visit = url :: rest) (hv : url ∉ s.visited_urls)
    (he : env url = AnalyzeResult.failed) :
    (crawlStep cfg env s).failed_urls = s.failed_urls ∧
    (crawlStep cfg env s).results =
      s.results ++ [(url, depthOf s url, s.pages_crawled + 1)] ∧
    (crawlStep cfg env s).pages_crawled = s.pages_crawled + 1 ∧
    (crawlStep cfg env s).urls_to_visit = rest ∧
    url ∈ (crawlStep cfg env s).visited_urls := by
  rw [crawlStep_failed cfg env s url rest hfr hv he]
  exact ⟨rfl, rfl, rfl, rfl, List.mem_cons_self _ _⟩

/-- Concrete instance of the amended C4: the all-failing session's first
iteration, on the start page. -/
theorem claim_c4_witness :
    ((initState cfg0).urls_to_visit = urlA :: [] ∧
      urlA ∉ (initState cfg0).visited_urls ∧
      envFail urlA = AnalyzeResult.failed) ∧
    ((crawlStep cfg0 envFail (initState cfg0)).failed_urls =
        (initState cfg0).failed_urls ∧
      (crawlStep cfg0 envFail (initState cfg0)).results =
        (initState cfg0).results ++
          [(urlA, depthOf (initState cfg0) urlA, (initState cfg0).pages_crawled + 1)] ∧
      (crawlStep cfg0 envFail (initState cfg0)).pages_crawled =
        (initState cfg0).pages_crawled + 1 ∧
      (crawlStep cfg0 envFail (initState cfg0)).urls_to_visit = [] ∧
      urlA ∈ (crawlStep cfg0 envFail (initState cfg0)).visited_urls) :=
  ⟨⟨rfl, by decide, rfl⟩,
    claim_c4 cfg0 envFail (initState cfg0) urlA [] rfl (by decide) rfl⟩

/-- Claim C9: when the persisted markup for a successfully analyzed page
cannot be located or read (`_get_page_content` returns `None`), the
iteration enqueues nothing, the step completes normally — the result is
still recorded and budget consumed — and the failed set is untouched. -/
theorem claim_c9 (cfg : CrawlConfig) (env : String → AnalyzeResult)
    (s : CrawlState) (url : String) (rest : List String)
    (hfr : s.urls_to_visit = url :: rest) (hv : url ∉ s.visited_urls)
    (he : env url = AnalyzeResult.ok none) :
    (crawlStep cfg env s).urls_to_visit = rest ∧
    (crawlStep cfg env s).failed_urls = s.failed_urls ∧
    (crawlStep cfg env s).results =
      s.results ++ [(url, depthOf s url, s.pages_crawled + 1)] ∧
    (crawlStep cfg env s).pages_crawled = s.pages_crawled + 1 := by
  rw [crawlStep_ok_none cfg env s url rest hfr hv he]
  exact ⟨rfl, rfl, rfl, rfl⟩

/-- Concrete instance of C9: the unreadable-markup session's first
iteration, on the start page. -/
theorem claim_c9_witness :
    ((initState cfg0).urls_to_visit = urlA :: [] ∧
      urlA ∉ (initState cfg0).visited_urls ∧
      envNone urlA = AnalyzeResult.ok none) ∧
    ((crawlStep cfg0 envNone (initState cfg0)).urls_to_visit = [] ∧
      (crawlStep cfg0 envNone (initState cfg0)).failed_urls =
        (initState cfg0).failed_urls ∧
      (crawlStep cfg0 envNone (initState cfg0)).results =
        (initState cfg0).results ++
          [(urlA, depthOf (initState cfg0) urlA, (initState cfg0).pages_crawled + 1)] ∧
      (crawlStep cfg0 envNone (initState cfg0)).pages_crawled =
        (initState cfg0).pages_crawled + 1) :=
  ⟨⟨rfl, by decide, rfl⟩,
    claim_c9 cfg0 envNone (initState cfg0) urlA [] rfl (by decide) rfl⟩

/-- Claim C6: the filtering policy's domain check accepts a candidate host
exactly equal to the start host; accepts a candidate sharing the start
host's last two dot-separated labels; rejects every other host — and in
that case `should_crawl_url` rejects the URL outright; concretely, for
start host `shop.example.com` the candidate `https://www.example.com/x` is
accepted and `https://evil.com/x` is rejected. -/
theorem claim_c6 :
    (∀ host : String, domain_check host host = true) ∧
    (∀ base cand : String,
      2 ≤ (splitDots base).length → 2 ≤ (splitDots cand).length →
      joinDots (lastTwo (splitDots base)) = joinDots (lastTwo (splitDots cand)) →
      domain_check base cand = true) ∧
    (∀ base cand : String, cand ≠ base →
      ¬(2 ≤ (splitDots base).length ∧ 2 ≤ (splitDots cand).length ∧
        joinDots (lastTwo (splitDots base)) = joinDots (lastTwo (splitDots cand))) →
      domain_check base cand = false) ∧
    (∀ (cfg : CrawlConfig) (s : CrawlState) (url : String),
      url ∉ s.visited_urls → url ∉ s.failed_urls →
      domain_check (base_domain cfg) (netlocStr url) = false →
      should_crawl_url cfg s url = false) ∧
    domain_check "shop.example.com" (netlocStr "https://www.example.com/x") = true ∧
    domain_check "shop.example.com" (netlocStr "https://evil.com/x") = false := by
  refine ⟨?_, ?_, ?_, should_crawl_url_domain_reject, by decide, by decide⟩
  · intro host
    unfold domain_check
    rw [if_pos rfl]
  · intro base cand hb hc hj
    unfold domain_check
    by_cases h : cand = base
    · rw [if_pos h]
    · rw [if_neg h, if_pos ⟨hb, hc⟩, if_pos hj]
  · intro base cand hne hrel
    unfold domain_check
    rw [if_neg hne]
    by_cases hlen : 2 ≤ (splitDots base).length ∧ 2 ≤ (splitDots cand).length
    · rw [if_pos hlen]
      have hj : ¬ joinDots (lastTwo (splitDots base)) =
          joinDots (lastTwo (splitDots cand)) :=
        fun hj => hrel ⟨hlen.1, hlen.2, hj⟩
      rw [if_neg hj]
    · rw [if_neg hlen]

/-- Concrete instance of C6's related-domain acceptance: the two-label
suffix `example.com` relates `shop.example.com` and `www.example.com`. -/
theorem claim_c6_witness :
    (2 ≤ (splitDots "shop.example.com").length ∧
      2 ≤ (splitDots "www.example.com").length ∧
      joinDots (lastTwo (splitDots "shop.example.com")) =
        joinDots (lastTwo (splitDots "www.example.com"))) ∧
    domain_check "shop.example.com" "www.example.com" = true :=
  ⟨⟨by decide, by decide, by decide⟩,
    claim_c6.2.1 "shop.example.com" "www.example.com" (by decide) (by decide)
      (by decide)⟩

/-- Modelled from the spec: the cancellation clause of §4.3 step 1 and §5
("a cooperative flag checked at the top of each loop iteration;
cancellation ... prevents the next [analyzer call] from starting") entails
that some session can reach a state in which the loop has exited (guard
false) although the queue is non-empty and page budget remains. The
`while` condition of line 3053 is `self.urls_to_visit and
self.pages_crawled < self.max_pages`; the class has no cancellation
field, so this proposition is what the spec's flag would make true. -/
def cancellationExitPossible : Prop :=
  ∃ (cfg : CrawlConfig) (env : String → AnalyzeResult) (s : CrawlState),
    Reachable cfg env s ∧ loopGuard cfg s = false ∧
    s.urls_to_visit ≠ [] ∧ s.pages_crawled < cfg.max_pages

/-- Claim C7 as stated is false on the code: no cancellation flag exists —
the loop can never have exited while the queue is non-empty and budget
remains, which a set cancellation flag would produce. -/
theorem claim_c7_counterexample : ¬ cancellationExitPossible := by
  rintro ⟨cfg, env, s, -, hg, hne, hlt⟩
  rw [(loopGuard_spec cfg s).mpr ⟨hne, hlt⟩] at hg
  exact absurd hg (by simp)

/-- Claim C7, amended: the crawl loop checks no cancellation flag — its
top-of-iteration guard is exactly "queue non-empty and `pages_crawled <
max_pages`", it exits only when the queue is empty or the budget is
consumed, and the report generator is invoked on the loop's final state
after the loop exits, whichever condition ended it. -/
theorem claim_c7 (cfg : CrawlConfig) (env : String → AnalyzeResult) :
    loopGuard cfg (crawlLoop cfg env (initState cfg)) = false ∧
    (∀ s : CrawlState, loopGuard cfg s = false ↔
      (s.urls_to_visit = [] ∨ cfg.max_pages ≤ s.pages_crawled)) ∧
    (crawl cfg env).2 = generate_crawl_report cfg (crawlLoop cfg env (initState cfg)) := by
  refine ⟨crawlLoop_not_guard cfg env _, ?_, rfl⟩
  intro s
  have h2 : loopGuard cfg s = false ↔
      ¬(s.urls_to_visit ≠ [] ∧ s.pages_crawled < cfg.max_pages) := by
    rw [Bool.eq_false_iff]
    exact not_congr (loopGuard_spec cfg s)
  rw [h2, not_and_or, not_ne_iff, not_lt]

/-- Claim C8 as stated is false on the code: the allocator has no sequence
number and its time suffix has one-second resolution, so two distinct URLs
of one session — here `/a` and `/a/`, whose sanitized path components
coincide — derive the same path when processed within the same second. -/
theorem claim_c8_counterexample :
    ("https://example.com/a" : String) ≠ "https://example.com/a/" ∧
    create_url_based_directory "output" "https://example.com/a"
        { date_path := "2026/10/12", time_str := "143000" } =
      create_url_based_directory "output" "https://example.com/a/"
        { date_path := "2026/10/12", time_str := "143000" } := by
  constructor
  · decide
  · decide

/-- Claim C8, amended: the allocator derives the path deterministically
from the URL's host and path components plus the date path and the
second-resolution time suffix — two URLs agreeing on netloc and path
always receive the same directory for the same timestamp; uniqueness
across distinct URLs of a session is NOT guaranteed (there is no sequence
number or sub-second component). -/
theorem claim_c8 (base u1 u2 : String) (t : DirTimestamp)
    (hn : netlocStr u1 = netlocStr u2) (hp : pathStr u1 = pathStr u2) :
    create_url_based_directory base u1 t = create_url_based_directory base u2 t := by
  have h1 : netlocCL u1.data = netlocCL u2.data := congrArg String.data hn
  have h2 : pathCL u1.data = pathCL u2.data := congrArg String.data hp
  unfold create_url_based_directory dirDomain dirPath
  rw [h1, h2]

/-- Concrete instance of the amended C8: URLs differing only in their query
agree on netloc and path, hence share the derived directory. -/
theorem claim_c8_witness :
    (netlocStr "https://example.com/a?x=1" = netlocStr "https://example.com/a?x=2" ∧
      pathStr "https://example.com/a?x=1" = pathStr "https://example.com/a?x=2") ∧
    create_url_based_directory "output" "https://example.com/a?x=1"
        { date_path := "2026/10/12", time_str := "143000" } =
      create_url_based_directory "output" "https://example.com/a?x=2"
        { date_path := "2026/10/12", time_str := "143000" } :=
  ⟨⟨by decide, by decide⟩,
    claim_c8 "output" "https://example.com/a?x=1" "https://example.com/a?x=2"
      { date_path := "2026/10/12", time_str := "143000" } (by decide) (by decide)⟩

end WebsightCrawler
